import Mathlib

/-!
Verification development for the two-way SMS/USSD educational assistant
(`src/two_way_sms.py`).  Strings are modelled as `List Char` (ASCII-level
semantics of the Python operations used by the program: `split`, `strip`,
slicing, `isdigit`, `int`, list indexing).  Stateful code is modelled by
explicit state passing; external collaborators (generation service,
messaging dispatch, payment API) are modelled by outcome parameters;
Python exceptions are modelled with `Except`.
-/

namespace TwoWaySms

/-- Text is a list of characters; `strL` injects Lean string literals. -/
abbrev Str := List Char

def strL (s : String) : Str := s.data

/-- Whitespace predicate used by Python `str.strip` (ASCII fragment). -/
def isSpc (c : Char) : Bool := c.isWhitespace

/-- Python `s.strip()`: remove leading and trailing whitespace. -/
def pyStrip (l : Str) : Str := (l.rdropWhile isSpc).dropWhile isSpc

/-- Python `s.isdigit()`: non-empty and all digits. -/
def isdigitB (l : Str) : Bool := !l.isEmpty && l.all (·.isDigit)

/-- Numeric value of a digit string (how Python `int` reads digits). -/
def digitsVal (l : Str) : Nat := l.foldl (fun acc c => 10 * acc + (c.toNat - 48)) 0

/-- Python `int(s)`: optional surrounding whitespace, optional sign, digits;
`none` models a raised `ValueError`. -/
def pyInt? (s : Str) : Option Int :=
  match pyStrip s with
  | '-' :: ds => if isdigitB ds then some (-(digitsVal ds : Int)) else none
  | '+' :: ds => if isdigitB ds then some (digitsVal ds : Int) else none
  | ds => if isdigitB ds then some (digitsVal ds : Int) else none

/-- Python list indexing `l[i]` with negative-index wraparound;
`none` models a raised `IndexError`. -/
def pyGet? (l : List α) (i : Int) : Option α :=
  let j : Int := if i < 0 then i + l.length else i
  if j < 0 then none else l[j.toNat]?

/-- Python `text.split(sep)` for a one-character separator (never returns
the empty list; splitting the empty string yields `[[]]`). -/
def splitStar : Str → List Str
  | [] => [[]]
  | c :: rest =>
    let ts := splitStar rest
    if c = '*' then [] :: ts
    else
      match ts with
      | [] => [[c]]
      | t :: ts2 => (c :: t) :: ts2

/-! ### Conversation store (`self.conversations`) -/

inductive Role where
  | student
  | assistant
deriving DecidableEq, Repr

/-- One stored history entry: `{"role", "content", "timestamp"}`.
Timestamps (`datetime.now().isoformat()`) are opaque capture-time values,
modelled as naturals supplied by the caller. -/
structure Msg where
  role : Role
  content : Str
  timestamp : Nat
deriving DecidableEq, Repr

/-- The `self.conversations` dict; `get(phone_number, [])` defaulting is
modelled by a total function into histories. -/
def Store := Str → List Msg

def emptyStore : Store := fun _ => []

/-- Lines 110-117: extend the history with the Student and the Assistant
entry, then keep only the last 20 entries when the cap is exceeded. -/
def appendHist (h : List Msg) (userMsg aiResp : Str) (t1 t2 : Nat) : List Msg :=
  let h2 := h ++ [⟨.student, userMsg, t1⟩, ⟨.assistant, aiResp, t2⟩]
  if 20 < h2.length then h2.rtake 20 else h2

/-- The history-append operation on the whole store (lines 106-117,
including the lazy `conversations[phone] = []` initialisation). -/
def storeAppend (s : Store) (id userMsg aiResp : Str) (t1 t2 : Nat) : Store :=
  fun k => if k = id then appendHist (s k) userMsg aiResp t1 t2 else s k

/-! ### Reply shaping (lines 102-104 and 119) -/

def contSuffix : Str := strL "... (reply 'more' for continuation)"

def genFallback : Str := strL "I'm having trouble generating a response. Please try again."

def procFallback : Str :=
  strL "Sorry, I'm having trouble processing your question right now. Please try again later."

/-- Lines 102-104: truncate the raw output to 300 characters and append the
continuation suffix when it is too long for SMS. -/
def truncSms (raw : Str) : Str :=
  if 300 < raw.length then raw.take 300 ++ contSuffix else raw

/-- The reply shaper: truncation (lines 102-104) followed by the final
`ai_response.strip() if ai_response else fallback` (line 119). -/
def shape (raw : Str) : Str :=
  let t := truncSms raw
  if t = [] then genFallback else pyStrip t

/-! ### Transcript rendering (lines 77-87) -/

def roleStr : Role → Str
  | .student => strL "Student"
  | .assistant => strL "Assistant"

def fmtMsg (m : Msg) : Str := roleStr m.role ++ strL ": " ++ m.content ++ strL "\n"

/-- Lines 80-84: `context` accumulated over `conversation_history[-10:]`
(the last 10 entries), guarded by `if conversation_history:`. -/
def buildContext (h : List Msg) : Str :=
  if h = [] then []
  else (h.rtake 10).foldl (fun ctx m => ctx ++ fmtMsg m) []

/-! ### Reply pipeline (`get_gemini_response`, lines 73-123, and
`handle_incoming_sms`, lines 125-139) -/

/-- The long system persona string (lines 48-57), reproduced with the
Python triple-quoted indentation. -/
def systemPrompt : Str :=
  strL ("You are an educational SMS chatbot assistant. Your role is to:\n" ++
    "        1. Help students with homework and study questions\n" ++
    "        2. Explain concepts in simple, clear language suitable for SMS\n" ++
    "        3. Provide educational resources and tips\n" ++
    "        4. Keep responses concise (under 160 characters when possible) due to SMS limitations\n" ++
    "        5. Be encouraging and supportive\n" ++
    "        6. If asked non-educational questions, politely redirect to educational topics\n" ++
    "        7. You can understand and respond in Swahili if the user speaks to you in Swahili, to support users in East African countries.\n" ++
    "        \n" ++
    "        Always be helpful, patient, and educational in your responses.")

/-- Line 87: the full generation prompt. -/
def fullPrompt (userMessage ctx : Str) : Str :=
  systemPrompt ++ strL "\n\nConversation history:\n" ++ ctx ++ strL "\nStudent: " ++
    userMessage ++ strL "\n\nEducational Assistant:"

/-- Outcome of the generation collaborator call (lines 90-100): `.ok s`
is a response whose candidate parts join to `s` (`s = []` both for an
empty text and for a response without candidates); `.error` is a raised
exception. -/
def GenOutcome := Except Unit Str

/-- `get_gemini_response`: returns the reply text together with the
updated conversation store.  On a raised exception the `except` clause
(lines 121-123) returns the apology without touching the store. -/
def get_gemini_response (userMessage phone : Str) (conv : Store) (gen : GenOutcome)
    (t1 t2 : Nat) : Str × Store :=
  match gen with
  | .error _ => (procFallback, conv)
  | .ok raw =>
    let ai := truncSms raw
    let conv2 := storeAppend conv phone userMessage ai t1 t2
    ((if ai = [] then genFallback else pyStrip ai), conv2)

/-- `handle_incoming_sms`: gets the AI reply, dispatches it back to the
sender (send_message never raises: it catches internally), returns it.
The third component records the dispatch attempts (text, recipient). -/
def handle_incoming_sms (phone userMessage : Str) (conv : Store) (gen : GenOutcome)
    (t1 t2 : Nat) : Str × Store × List (Str × Str) :=
  let r := get_gemini_response userMessage phone conv gen t1 t2
  (r.1, r.2, [(r.1, phone)])

/-! ### USSD interpreter (`ussd_callback`, lines 203-322) -/

/-- A bundle offer from the fixed catalog (lines 258-262). -/
structure Bundle where
  desc : Str
  amount : Nat
deriving DecidableEq, Repr

def bundles : List Bundle :=
  [⟨strL "100 SMS - TSH 1000", 1000⟩,
   ⟨strL "250 SMS - TSH 1000", 2000⟩,
   ⟨strL "500 SMS - TSH 1000", 3000⟩]

/-- Outcome of the `requests.post` payment call (lines 289-294):
`.raises` is a raised exception, `.resp ok` a response where `ok` is
`status_code == 200 and json status == "success"`. -/
inductive PayOutcome where
  | raises
  | resp (ok : Bool)

/-- Python exceptions that escape `ussd_callback` (the `try` block only
covers form parsing, so these propagate as unhandled faults). -/
inductive PyFault where
  | valueError
  | indexError
deriving DecidableEq, Repr

/-- Observable result of one USSD invocation: the response text and the
payment-order request (buyer phone, amount) when the payment collaborator
was invoked. -/
structure UssdOut where
  text : Str
  payment : Option (Str × Nat)
deriving DecidableEq, Repr

def rootMenu : Str :=
  strL "CON Welcome to EduPlatform\n1. Register\n2. About Us\n3. Buy SMS Bundle\n4. Change Language"

/-- Line 264-267: the rendered bundle list,
`"CON Select SMS Bundle:\n" + "\n".join(f"{i+1}. {desc}")`. -/
def bundleListScreen : Str :=
  strL "CON Select SMS Bundle:\n" ++
    List.intercalate (strL "\n")
      (bundles.enum.map fun ib => strL (toString (ib.1 + 1)) ++ strL ". " ++ ib.2.desc)

def langMenu : Str := strL "CON Select Language:\n1. English\n2. Swahili"

/-- The arity-1 bundle-selection validation (line 270):
`bundle_index.isdigit() and 1 <= int(bundle_index) <= len(bundles)`. -/
def validSel (sel : Str) : Bool :=
  isdigitB sel && decide (1 ≤ digitsVal sel) && decide (digitsVal sel ≤ bundles.length)

/-- The menu dispatch of `ussd_callback` (lines 216-320) on the token
array.  `welcomeFails` models an exception raised inside the
registration `try` block (lines 236-245). -/
def ussdMenu (arr : List Str) (pay : PayOutcome) (welcomeFails : Bool) :
    Except PyFault UssdOut :=
  match arr with
  | [] => .ok ⟨rootMenu, none⟩
  | t0 :: rest =>
    if t0 = [] ∧ rest = [] then .ok ⟨rootMenu, none⟩
    else if t0 = strL "1" then
      match rest with
      | [] =>
        .ok ⟨strL "CON By registering, you agree to receive free daily prompts and updates.\n1. Agree\n0. Decline", none⟩
      | [tok] =>
        if tok = strL "1" then
          if welcomeFails then
            .ok ⟨strL "END Failed to send welcome message. Please try again later.", none⟩
          else .ok ⟨strL "END Registration successful! Welcome to our service.", none⟩
        else if tok = strL "0" then
          .ok ⟨strL "END Registration declined. Thank you for visiting.", none⟩
        else .ok ⟨strL "END Invalid input. Please try again.", none⟩
      | _ :: _ :: _ => .ok ⟨[], none⟩
    else if t0 = strL "2" then
      .ok ⟨strL "END We are an AI-powered educational SMS chatbot service.", none⟩
    else if t0 = strL "3" then
      match rest with
      | [] => .ok ⟨bundleListScreen, none⟩
      | [sel] =>
        if validSel sel then .ok ⟨strL "CON Enter phone number to pay with:", none⟩
        else .ok ⟨strL "END Invalid bundle selection.", none⟩
      | [sel, payNum] =>
        match pyInt? sel with
        | none => .error .valueError
        | some n =>
          match pyGet? bundles (n - 1) with
          | none => .error .indexError
          | some selected =>
            let amountToSend := max selected.amount 1000
            match pay with
            | .raises =>
              .ok ⟨strL "END Error contacting payment service. Please try again later.",
                some (payNum, amountToSend)⟩
            | .resp ok =>
              if ok then
                .ok ⟨strL "END You selected " ++ selected.desc ++
                  strL ". Payment request sent to " ++ payNum ++ strL ".",
                  some (payNum, amountToSend)⟩
              else
                .ok ⟨strL "END Failed to initiate payment. Please try again later.",
                  some (payNum, amountToSend)⟩
      | _ :: _ :: _ :: _ => .ok ⟨strL "END Invalid input.", none⟩
    else if t0 = strL "4" then
      match rest with
      | [tok] =>
        if tok = strL "1" then .ok ⟨strL "END Language changed to English.", none⟩
        else if tok = strL "2" then .ok ⟨strL "END Language changed to Swahili.", none⟩
        else .ok ⟨strL "END Invalid selection.", none⟩
      | _ => .ok ⟨langMenu, none⟩
    else .ok ⟨strL "END Invalid option. Please try again.", none⟩

/-- Line 213: `text.split("*") if text else []`. -/
def tokensOf (text : Str) : List Str :=
  if text = [] then [] else splitStar text

/-- The USSD webhook body from the trail string onward (lines 213-322). -/
def ussd_callback (text : Str) (pay : PayOutcome) (welcomeFails : Bool) :
    Except PyFault UssdOut :=
  ussdMenu (tokensOf text) pay welcomeFails

/-! ### Helper lemmas about taking from the right -/

theorem length_rtake20 (l : List α) (n : Nat) : (l.rtake n).length = min n l.length := by
  simp only [List.rtake, List.length_drop]
  omega

theorem rtake_eq_self {l : List α} {n : Nat} (h : l.length ≤ n) : l.rtake n = l := by
  simp [List.rtake, Nat.sub_eq_zero_of_le h]

theorem take_append_take (x y : List α) (n : Nat) :
    (x ++ y.take n).take n = (x ++ y).take n := by
  rw [List.take_append_eq_append_take, List.take_append_eq_append_take, List.take_take,
    Nat.min_eq_left (Nat.sub_le _ _)]

theorem rtake_append_rtake (a b : List α) (n : Nat) :
    (a.rtake n ++ b).rtake n = (a ++ b).rtake n := by
  rw [List.rtake_eq_reverse_take_reverse, List.rtake_eq_reverse_take_reverse a,
    List.rtake_eq_reverse_take_reverse (a ++ b)]
  rw [List.reverse_append, List.reverse_reverse, List.reverse_append]
  rw [take_append_take]

/-! ### The history-append fold -/

/-- One call to the history-append step: the incoming text, the reply
text, and the two capture-time timestamps. -/
structure AppendCall where
  userMsg : Str
  aiResp : Str
  t1 : Nat
  t2 : Nat

/-- The two entries one append call adds. -/
def callMsgs (c : AppendCall) : List Msg :=
  [⟨.student, c.userMsg, c.t1⟩, ⟨.assistant, c.aiResp, c.t2⟩]

/-- All entries a sequence of appends streams in, oldest first. -/
def flatCalls (calls : List AppendCall) : List Msg := (calls.map callMsgs).flatten

/-- Per-identity fold of history appends. -/
def foldHist (h : List Msg) (calls : List AppendCall) : List Msg :=
  calls.foldl (fun acc c => appendHist acc c.userMsg c.aiResp c.t1 c.t2) h

/-- Store-level fold of history appends for one identity. -/
def runStore (id : Str) (calls : List AppendCall) : Store :=
  calls.foldl (fun s c => storeAppend s id c.userMsg c.aiResp c.t1 c.t2) emptyStore

theorem appendHist_eq_rtake (h : List Msg) (u a : Str) (t1 t2 : Nat) :
    appendHist h u a t1 t2 =
      (h ++ [(⟨.student, u, t1⟩ : Msg), (⟨.assistant, a, t2⟩ : Msg)]).rtake 20 := by
  by_cases h20 : 20 < (h ++ [(⟨.student, u, t1⟩ : Msg), (⟨.assistant, a, t2⟩ : Msg)]).length
  · simp only [appendHist]
    rw [if_pos h20]
  · simp only [appendHist]
    rw [if_neg h20]
    exact (rtake_eq_self (Nat.le_of_not_lt h20)).symm

theorem appendHist_length_le (h : List Msg) (u a : Str) (t1 t2 : Nat) :
    (appendHist h u a t1 t2).length ≤ 20 := by
  rw [appendHist_eq_rtake, length_rtake20]
  omega

theorem foldHist_eq_rtake (calls : List AppendCall) :
    ∀ h : List Msg, h.length ≤ 20 → foldHist h calls = (h ++ flatCalls calls).rtake 20 := by
  induction calls with
  | nil =>
    intro h hh
    simp only [foldHist, List.foldl_nil, flatCalls, List.map_nil, List.flatten_nil,
      List.append_nil]
    exact (rtake_eq_self hh).symm
  | cons c cs ih =>
    intro h hh
    have step : foldHist h (c :: cs) =
        foldHist (appendHist h c.userMsg c.aiResp c.t1 c.t2) cs := rfl
    rw [step, ih _ (appendHist_length_le _ _ _ _ _), appendHist_eq_rtake,
      rtake_append_rtake, List.append_assoc]
    rfl

theorem runStore_apply (id : Str) (calls : List AppendCall) :
    runStore id calls id = foldHist [] calls := by
  suffices key : ∀ (cs : List AppendCall) (s : Store),
      (cs.foldl (fun s c => storeAppend s id c.userMsg c.aiResp c.t1 c.t2) s) id =
        cs.foldl (fun acc c => appendHist acc c.userMsg c.aiResp c.t1 c.t2) (s id) by
    exact key calls emptyStore
  intro cs
  induction cs with
  | nil => intro s; rfl
  | cons c cs ih =>
    intro s
    rw [List.foldl_cons, List.foldl_cons, ih]
    simp [storeAppend]

theorem flatCalls_length (calls : List AppendCall) :
    (flatCalls calls).length = 2 * calls.length := by
  induction calls with
  | nil => rfl
  | cons c cs ih =>
    simp only [flatCalls, List.map_cons, List.flatten_cons, List.length_append,
      List.length_cons] at *
    simp [callMsgs, ih]
    omega

/-- C1 helper: the history after any sequence of appends is exactly the
last-20 window of the streamed entries. -/
theorem runStore_eq_window (id : Str) (calls : List AppendCall) :
    runStore id calls id = (flatCalls calls).rtake 20 := by
  rw [runStore_apply, foldHist_eq_rtake calls [] (by simp)]
  rfl

/-- C1: after `N` append calls for an identity, the stored history has
exactly `min (2 * N) 20` entries, and it consists of the most recent
entries of the streamed sequence (oldest evicted first), so it never
exceeds 20 entries. -/
theorem history_cap_fifo (id : Str) (calls : List AppendCall) :
    (runStore id calls id).length = min (2 * calls.length) 20 ∧
    runStore id calls id = (flatCalls calls).rtake 20 ∧
    (runStore id calls id).length ≤ 20 := by
  refine ⟨?_, runStore_eq_window id calls, ?_⟩
  · rw [runStore_eq_window, length_rtake20, flatCalls_length]
    omega
  · rw [runStore_eq_window, length_rtake20]
    omega

/-! ### Role alternation (implicit invariant) -/

def flipR : Role → Role
  | .student => .assistant
  | .assistant => .student

/-- The entries strictly alternate roles, the first one being `r`. -/
def altFrom : Role → List Msg → Bool
  | _, [] => true
  | r, m :: t => decide (m.role = r) && altFrom (flipR r) t

theorem flipR_flipR (r : Role) : flipR (flipR r) = r := by
  cases r <;> rfl

theorem altFrom_flat (calls : List AppendCall) : altFrom .student (flatCalls calls) = true := by
  induction calls with
  | nil => rfl
  | cons c cs ih =>
    simp only [flatCalls, List.map_cons, List.flatten_cons] at *
    simp [callMsgs, altFrom, flipR, ih]

theorem altFrom_drop_two (r : Role) (l : List Msg) (h : altFrom r l = true) :
    altFrom r (l.drop 2) = true := by
  match l with
  | [] => rfl
  | [m] => rfl
  | m1 :: m2 :: t =>
    simp only [altFrom, Bool.and_eq_true] at h
    have := h.2.2
    rwa [flipR_flipR] at this

theorem altFrom_drop_even (j : Nat) (r : Role) (l : List Msg) (h : altFrom r l = true) :
    altFrom r (l.drop (2 * j)) = true := by
  induction j generalizing l with
  | zero => simpa using h
  | succ k ih =>
    have h2 : 2 * (k + 1) = 2 * k + 2 := by ring
    rw [h2, ← List.drop_drop]
    exact altFrom_drop_two r _ (ih l h)

/-- C10: after any sequence of append calls, the stored history for the
identity has even length and strictly alternates roles starting with
`Student`. -/
theorem history_alternates (id : Str) (calls : List AppendCall) :
    Even (runStore id calls id).length ∧
    altFrom .student (runStore id calls id) = true := by
  rw [runStore_eq_window]
  constructor
  · rw [length_rtake20, flatCalls_length]
    rcases Nat.le_total 20 (2 * calls.length) with h | h
    · rw [Nat.min_eq_left h]
      decide
    · rw [Nat.min_eq_right h]
      exact ⟨calls.length, by ring⟩
  · show altFrom .student ((flatCalls calls).drop ((flatCalls calls).length - 20)) = true
    rw [flatCalls_length]
    have h2 : 2 * calls.length - 20 = 2 * (calls.length - 10) := by omega
    rw [h2]
    exact altFrom_drop_even _ _ _ (altFrom_flat calls)

/-! ### Transcript rendering: claims about the context window -/

theorem foldl_append_eq_flatten (f : α → Str) (l : List α) (init : Str) :
    l.foldl (fun acc m => acc ++ f m) init = init ++ (l.map f).flatten := by
  induction l generalizing init with
  | nil => simp
  | cons c t ih =>
    rw [List.foldl_cons, ih, List.map_cons, List.flatten_cons, List.append_assoc]

/-- Modelled from the spec: the transcript as §4.3 step 1 words it — the
entire stored window (the cap limits it to 20 entries), role-prefixed, in
chronological order. -/
def specTranscript (h : List Msg) : Str := ((h.rtake 20).map fmtMsg).flatten

/-- A concrete stored history of 12 entries (within the 20-entry cap). -/
def hist12 : List Msg :=
  [⟨.student, strL "a", 0⟩, ⟨.assistant, strL "b", 1⟩,
   ⟨.student, strL "c", 2⟩, ⟨.assistant, strL "d", 3⟩,
   ⟨.student, strL "e", 4⟩, ⟨.assistant, strL "f", 5⟩,
   ⟨.student, strL "g", 6⟩, ⟨.assistant, strL "h", 7⟩,
   ⟨.student, strL "i", 8⟩, ⟨.assistant, strL "j", 9⟩,
   ⟨.student, strL "k", 10⟩, ⟨.assistant, strL "l", 11⟩]

/-- C2 counterexample: for a 12-entry stored history, the context the
code renders into the prompt is not the whole stored window: the first
two entries are missing from it. -/
theorem transcript_window_counterexample :
    buildContext hist12 ≠ specTranscript hist12 := by decide

/-- C2 amended: the transcript rendered into the generation prompt is the
role-prefixed rendering, in chronological order, of the last 10 entries
(5 exchanges) of the stored history — not of the whole 20-entry window. -/
theorem transcript_last_ten_entries (h : List Msg) :
    buildContext h = ((h.rtake 10).map fmtMsg).flatten := by
  by_cases hh : h = []
  · subst hh
    rfl
  · simp only [buildContext, if_neg hh]
    exact foldl_append_eq_flatten fmtMsg (h.rtake 10) []

/-! ### Reply pipeline: fallback and append behaviour -/

/-- C4 counterexample: when the generation collaborator raises, the
pipeline does not append anything: starting from an empty store, after a
failing generation the history for the identity is still empty, not the
(incomingText, finalText) pair the claim requires. -/
theorem append_on_failure_counterexample :
    (get_gemini_response (strL "hi") (strL "X") emptyStore (.error ()) 0 0).2 (strL "X") = [] ∧
    (get_gemini_response (strL "hi") (strL "X") emptyStore (.error ()) 0 0).2 (strL "X") ≠
      [⟨.student, strL "hi", 0⟩, ⟨.assistant, procFallback, 0⟩] := by
  exact ⟨rfl, by decide⟩

/-- C4 amended: the append is branch-dependent.  When generation raises,
the store is returned untouched (the append is skipped) while the
fallback is still dispatched; when generation succeeds — even with empty
output — the pair (incomingText, truncated raw output) is appended, the
assistant entry holding the truncated (unstripped) output rather than
the returned finalText. -/
theorem append_branch_behaviour (userMessage phone : Str) (conv : Store) (raw : Str)
    (t1 t2 : Nat) :
    (get_gemini_response userMessage phone conv (.error ()) t1 t2).2 = conv ∧
    (get_gemini_response userMessage phone conv (.ok raw) t1 t2).2 phone =
      appendHist (conv phone) userMessage (truncSms raw) t1 t2 ∧
    (handle_incoming_sms phone userMessage conv (.error ()) t1 t2).2.2 =
      [(procFallback, phone)] := by
  refine ⟨rfl, ?_, rfl⟩
  simp [get_gemini_response, storeAppend]

/-- C5 counterexample: on success with empty output the pipeline returns
the "having trouble generating" fallback, which is a different fixed
string from the "trouble processing your question" apology the claim
names for this case. -/
theorem empty_output_fallback_counterexample :
    (get_gemini_response (strL "q") (strL "X") emptyStore (.ok []) 0 0).1 = genFallback ∧
    genFallback ≠ procFallback := by
  exact ⟨rfl, by decide⟩

/-- C5 amended: the pipeline never propagates the generation failure; on
a raised failure it returns the fixed "trouble processing your question"
apology, while on success with empty/absent output it returns the
distinct fixed "having trouble generating a response" fallback. -/
theorem fallback_on_failure (userMessage phone : Str) (conv : Store) (t1 t2 : Nat) :
    (get_gemini_response userMessage phone conv (.error ()) t1 t2).1 = procFallback ∧
    (get_gemini_response userMessage phone conv (.ok []) t1 t2).1 = genFallback := by
  exact ⟨rfl, rfl⟩

/-! ### USSD: empty trail handling -/

/-- C8: the empty trail string and the single-empty-token array are
treated identically: both render the root menu with the continuation
sigil. -/
theorem empty_trail_root_menu (pay : PayOutcome) (wf : Bool) :
    ussd_callback [] pay wf = ussdMenu [[]] pay wf ∧
    ussd_callback [] pay wf = .ok ⟨rootMenu, none⟩ ∧
    (strL "CON ").isPrefixOf rootMenu = true := by
  exact ⟨rfl, rfl, by decide⟩

/-! ### Properties of `pyStrip` -/

theorem length_pyStrip_le (l : Str) : (pyStrip l).length ≤ l.length := by
  have h1 : (l.rdropWhile isSpc).length ≤ l.length :=
    (List.rdropWhile_prefix isSpc l).length_le
  have h2 : ((l.rdropWhile isSpc).dropWhile isSpc).length ≤ (l.rdropWhile isSpc).length :=
    (List.dropWhile_suffix isSpc).length_le
  exact le_trans h2 h1

theorem head_not_of_dropWhile_self (p : Char → Bool) (B : Str) (hB : B.dropWhile p = B)
    (c : Char) (z : Str) (hcz : B = c :: z) : p c = false := by
  by_contra hc
  rw [Bool.not_eq_false] at hc
  rw [hcz, List.dropWhile_cons, if_pos hc] at hB
  have hlen := congrArg List.length hB
  have hle := (List.dropWhile_suffix (l := z) p).length_le
  simp only [List.length_cons] at hlen
  omega

theorem dropWhile_eq_self_of_clean_super (p : Char → Bool) (B y : Str)
    (hB : B.dropWhile p = B) (hy : y <+: B) : y.dropWhile p = y := by
  match y, hy with
  | [], _ => rfl
  | c :: z, hy =>
    obtain ⟨w, hw⟩ := hy
    have hc : p c = false :=
      head_not_of_dropWhile_self p B hB c (z ++ w) (by rw [← hw]; rfl)
    rw [List.dropWhile_cons, hc]
    simp

theorem rdropWhile_pyStrip (l : Str) : (pyStrip l).rdropWhile isSpc = pyStrip l := by
  have hA : (l.rdropWhile isSpc).reverse = l.reverse.dropWhile isSpc := by
    rw [List.rdropWhile, List.reverse_reverse]
  have hclean : ((l.rdropWhile isSpc).reverse).dropWhile isSpc = (l.rdropWhile isSpc).reverse := by
    rw [hA]
    exact List.dropWhile_idempotent isSpc l.reverse
  have hpre : (pyStrip l).reverse <+: (l.rdropWhile isSpc).reverse := by
    rw [ List.reverse_prefix]
    exact List.dropWhile_suffix isSpc
  have h := dropWhile_eq_self_of_clean_super isSpc _ _ hclean hpre
  show ((pyStrip l).reverse.dropWhile isSpc).reverse = pyStrip l
  rw [h, List.reverse_reverse]

theorem pyStrip_idem (l : Str) : pyStrip (pyStrip l) = pyStrip l := by
  show ((pyStrip l).rdropWhile isSpc).dropWhile isSpc = pyStrip l
  rw [rdropWhile_pyStrip]
  show ((l.rdropWhile isSpc).dropWhile isSpc).dropWhile isSpc = _
  exact List.dropWhile_idempotent isSpc _

theorem dropWhile_append_of_clean (x y : Str) (hy : y.dropWhile isSpc = y) :
    (x ++ y).dropWhile isSpc = x.dropWhile isSpc ++ y := by
  induction x with
  | nil => simpa using hy
  | cons c t ih =>
    by_cases hc : isSpc c
    · simp only [List.cons_append, List.dropWhile_cons, hc, if_true, ih]
    · simp [List.dropWhile_cons, hc]

theorem stripTrail_append_contSuffix (x : Str) :
    (x ++ contSuffix).rdropWhile isSpc = x ++ contSuffix := by
  have hrev : (x ++ contSuffix).reverse = ')' :: (contSuffix.reverse.tail ++ x.reverse) := by
    rw [List.reverse_append]
    have hS : contSuffix.reverse = ')' :: contSuffix.reverse.tail := by decide
    rw [hS]
    rfl
  unfold List.rdropWhile
  rw [hrev, List.dropWhile_cons]
  have hc : isSpc ')' = false := by decide
  rw [hc]
  simp only [Bool.false_eq_true, if_false]
  rw [← hrev, List.reverse_reverse]

theorem pyStrip_append_contSuffix (x : Str) :
    pyStrip (x ++ contSuffix) = x.dropWhile isSpc ++ contSuffix := by
  show ((x ++ contSuffix).rdropWhile isSpc).dropWhile isSpc = x.dropWhile isSpc ++ contSuffix
  rw [stripTrail_append_contSuffix, dropWhile_append_of_clean]
  decide

/-! ### Reply shaper: truncation (C6) and idempotence (C9) -/

set_option maxRecDepth 10000 in
/-- C6 counterexample: an input of length 500 beginning with a space: the
final strip removes the leading space after truncation, so the output is
one character shorter than `300 + length(suffix)`. -/
theorem shape_truncation_counterexample :
    (' ' :: List.replicate 499 'a').length = 500 ∧
    (shape (' ' :: List.replicate 499 'a')).length ≠ 300 + contSuffix.length := by
  exact ⟨by decide, by decide⟩

/-- C6 amended: for rawText longer than 300 characters the shaper returns
the first 300 characters with leading whitespace stripped, followed by
the fixed continuation suffix; the output always ends in the suffix, and
when rawText does not begin with whitespace the output length is exactly
`300 + length(suffix)`. -/
theorem shape_truncation (raw : Str) (hlen : 300 < raw.length) :
    shape raw = (raw.take 300).dropWhile isSpc ++ contSuffix ∧
    contSuffix <:+ shape raw ∧
    (isSpc raw.headI = false → (shape raw).length = 300 + contSuffix.length) := by
  have htr : truncSms raw = raw.take 300 ++ contSuffix := by
    simp [truncSms, hlen]
  have hne : raw.take 300 ++ contSuffix ≠ [] := by
    intro h0
    have := congrArg List.length h0
    simp at this
    exact absurd this.2 (by decide)
  have hmain : shape raw = (raw.take 300).dropWhile isSpc ++ contSuffix := by
    show (if truncSms raw = [] then genFallback else pyStrip (truncSms raw)) = _
    rw [htr, if_neg hne, pyStrip_append_contSuffix]
  refine ⟨hmain, ⟨(raw.take 300).dropWhile isSpc, hmain.symm⟩, ?_⟩
  intro hhead
  match raw, hlen with
  | c :: r, hlen =>
    have hc : isSpc c = false := hhead
    have ht : (c :: r).take 300 = c :: r.take 299 := by
      rw [show (300 : Nat) = 299 + 1 from rfl, List.take_succ_cons]
    rw [hmain, ht, List.dropWhile_cons, hc]
    simp only [Bool.false_eq_true, if_false, List.length_append, List.length_cons,
      List.length_take]
    have hr : 299 ≤ r.length := by
      simp only [List.length_cons] at hlen
      omega
    omega

set_option maxRecDepth 10000 in
/-- C6 amended, witness at a concrete input of length 500. -/
theorem shape_truncation_witness :
    (shape (List.replicate 500 'a')).length = 300 + contSuffix.length := by
  have h := shape_truncation (List.replicate 500 'a') (by decide)
  exact h.2.2 (by decide)

/-- C9 counterexample: a single space is short, but shaping it yields the
empty string, and shaping that yields the fixed fallback, so the shaper
is not idempotent on whitespace-only short inputs. -/
theorem shape_idempotent_counterexample :
    (strL " ").length ≤ 300 ∧ shape (shape (strL " ")) ≠ shape (strL " ") := by
  exact ⟨by decide, by decide⟩

/-- C9 amended: the shaper is idempotent on short inputs that are either
empty or do not strip to the empty string (i.e. on every short input
except non-empty all-whitespace text). -/
theorem shape_idempotent_short (x : Str) (hlen : x.length ≤ 300)
    (hx : x = [] ∨ pyStrip x ≠ []) :
    shape (shape x) = shape x := by
  rcases hx with hx | hx
  · subst hx
    decide
  · have hxne : x ≠ [] := by
      intro h0
      rw [h0] at hx
      exact hx rfl
    have htr : truncSms x = x := by
      simp [truncSms, Nat.not_lt.mpr hlen]
    have hshape : shape x = pyStrip x := by
      show (if truncSms x = [] then genFallback else pyStrip (truncSms x)) = _
      rw [htr, if_neg hxne]
    rw [hshape]
    have htr2 : truncSms (pyStrip x) = pyStrip x := by
      simp [truncSms, Nat.not_lt.mpr (le_trans (length_pyStrip_le x) hlen)]
    show (if truncSms (pyStrip x) = [] then genFallback else pyStrip (truncSms (pyStrip x))) = _
    rw [htr2, if_neg hx, pyStrip_idem]

/-- C9 amended, witness at a concrete short input. -/
theorem shape_idempotent_short_witness :
    shape (shape (strL "hi")) = shape (strL "hi") :=
  shape_idempotent_short (strL "hi") (by decide) (Or.inr (by decide))

/-! ### USSD bundle branch: selection validation (C3) -/

/-- C3 counterexample: the trail `"1*9"` is handled by the registration
branch (bundle purchase is top-level token `"3"`), yielding a generic
invalid-input screen rather than an invalid-bundle-selection one; and at
arity 2 the selection is not re-validated: `"3*9*0712345678"` with the
3-offer catalog raises an unhandled IndexError fault instead of an
error screen. -/
theorem bundle_validation_counterexample :
    ussd_callback (strL "1*9") (.resp true) false =
      .ok ⟨strL "END Invalid input. Please try again.", none⟩ ∧
    ussd_callback (strL "3*9*0712345678") (.resp true) false = .error .indexError := by
  exact ⟨rfl, rfl⟩

/-- C3 amended: only at arity 1 does the bundle branch validate the
selection: any selection failing the positive-integer-in-bounds check
terminates there with the invalid-bundle-selection screen and the payment
collaborator is never invoked.  At arity 2 the selection is not
re-validated: a non-numeric token (e.g. `"abc"`) raises an unhandled
ValueError, an out-of-range one (e.g. `"9"`) raises an unhandled
IndexError, and `"0"` wraps around to the last catalog offer and does
invoke the payment collaborator.  The trail `"1*9"` lands in the
registration branch and yields its generic invalid-input screen. -/
theorem bundle_validation_arity (sel payNum : Str) (pay : PayOutcome) (wf : Bool)
    (hsel : validSel sel = false) :
    ussdMenu [strL "3", sel] pay wf = .ok ⟨strL "END Invalid bundle selection.", none⟩ ∧
    ussdMenu [strL "3", strL "abc", payNum] pay wf = .error .valueError ∧
    ussdMenu [strL "3", strL "9", payNum] pay wf = .error .indexError ∧
    (∃ out, ussdMenu [strL "3", strL "0", payNum] pay wf = .ok out ∧
      out.payment = some (payNum, 3000)) ∧
    ussdMenu [strL "1", strL "9"] pay wf =
      .ok ⟨strL "END Invalid input. Please try again.", none⟩ := by
  refine ⟨?_, rfl, rfl, ?_, rfl⟩
  · have h1 : ¬(strL "3" = [] ∧ [sel] = ([] : List Str)) := by
      intro h
      exact absurd h.1 (by decide)
    show ussdMenu [strL "3", sel] pay wf = _
    simp only [ussdMenu, if_neg h1, hsel]
    rw [if_neg (show ¬ strL "3" = strL "1" by decide),
      if_neg (show ¬ strL "3" = strL "2" by decide)]
    simp
  · cases pay with
    | raises => exact ⟨_, rfl, rfl⟩
    | resp ok => cases ok <;> exact ⟨_, rfl, rfl⟩

/-- C3 amended, witness: the invalid selection `"9"` at arity 1. -/
theorem bundle_validation_arity_witness :
    ussdMenu [strL "3", strL "9"] (.resp true) false =
      .ok ⟨strL "END Invalid bundle selection.", none⟩ :=
  (bundle_validation_arity (strL "9") (strL "x") (.resp true) false (by decide)).1

/-! ### USSD response coverage (C7) -/

/-- The response text is non-empty and carries a continuation or a
termination sigil. -/
def sigilOk (t : Str) : Bool :=
  !t.isEmpty && ((strL "CON ").isPrefixOf t || (strL "END ").isPrefixOf t)

/-- Token arrays on which the registration branch falls through all its
arity checks (three or more tokens), leaving the response empty. -/
def registerOverflow (arr : List Str) : Bool :=
  match arr with
  | t0 :: _ :: _ :: _ => decide (t0 = strL "1")
  | _ => false

/-- Token arrays on which the arity-2 bundle branch raises an unhandled
exception: the selection does not parse as an integer, or the resolved
index is outside the wraparound range of the catalog. -/
def bundleArity2Fault (arr : List Str) : Bool :=
  match arr with
  | [t0, sel, _] =>
    decide (t0 = strL "3") &&
      (match pyInt? sel with
       | none => true
       | some n => (pyGet? bundles (n - 1)).isNone)
  | _ => false

theorem ussdMenu_coverage (pay : PayOutcome) (wf : Bool) (arr : List Str) :
    match ussdMenu arr pay wf with
    | .error _ => bundleArity2Fault arr = true
    | .ok out => sigilOk out.text = true ∨
        (out.text = [] ∧ registerOverflow arr = true) := by
  match arr with
  | [] => exact Or.inl (by decide)
  | t0 :: rest =>
    by_cases h0 : t0 = [] ∧ rest = []
    · have e : ussdMenu (t0 :: rest) pay wf = .ok ⟨rootMenu, none⟩ := by
        simp only [ussdMenu, if_pos h0]
      rw [e]
      exact Or.inl (by decide)
    · by_cases h1 : t0 = strL "1"
      · subst h1
        rcases rest with _ | ⟨r1, rest2⟩
        · exact Or.inl (by decide)
        · rcases rest2 with _ | ⟨r2, rest3⟩
          · by_cases hr1 : r1 = strL "1"
            · subst hr1
              cases wf
              · exact Or.inl (by decide)
              · exact Or.inl (by decide)
            · by_cases hr0 : r1 = strL "0"
              · subst hr0
                exact Or.inl (by decide)
              · have e : ussdMenu (strL "1" :: [r1]) pay wf =
                    .ok ⟨strL "END Invalid input. Please try again.", none⟩ := by
                  simp only [ussdMenu]
                  rw [if_neg h0, if_pos trivial, if_neg hr1, if_neg hr0]
                rw [e]
                exact Or.inl (by decide)
          · have e : ussdMenu (strL "1" :: r1 :: r2 :: rest3) pay wf = .ok ⟨[], none⟩ := by
              simp only [ussdMenu]
              rw [if_neg h0, if_pos trivial]
            rw [e]
            exact Or.inr ⟨rfl, rfl⟩
      · by_cases h2 : t0 = strL "2"
        · subst h2
          have e : ussdMenu (strL "2" :: rest) pay wf =
              .ok ⟨strL "END We are an AI-powered educational SMS chatbot service.", none⟩ := by
            simp only [ussdMenu]
            rw [if_neg h0, if_neg h1, if_pos trivial]
          rw [e]
          exact Or.inl (by decide)
        · by_cases h3 : t0 = strL "3"
          · subst h3
            rcases rest with _ | ⟨sel, rest2⟩
            · exact Or.inl (by decide)
            · rcases rest2 with _ | ⟨payn, rest3⟩
              · by_cases hv : validSel sel = true
                · have e : ussdMenu (strL "3" :: [sel]) pay wf =
                      .ok ⟨strL "CON Enter phone number to pay with:", none⟩ := by
                    simp only [ussdMenu]
                    rw [if_neg h0, if_neg h1, if_neg h2, if_pos trivial, if_pos hv]
                  rw [e]
                  exact Or.inl (by decide)
                · have e : ussdMenu (strL "3" :: [sel]) pay wf =
                      .ok ⟨strL "END Invalid bundle selection.", none⟩ := by
                    simp only [ussdMenu]
                    rw [if_neg h0, if_neg h1, if_neg h2, if_pos trivial, if_neg hv]
                  rw [e]
                  exact Or.inl (by decide)
              · rcases rest3 with _ | ⟨r3, rest4⟩
                · rcases hint : pyInt? sel with _ | n
                  · have e : ussdMenu (strL "3" :: [sel, payn]) pay wf = .error .valueError := by
                      simp only [ussdMenu, hint]
                      rw [if_neg h0, if_neg h1, if_neg h2, if_pos trivial]
                    rw [e]
                    simp [bundleArity2Fault, hint]
                  · rcases hidx : pyGet? bundles (n - 1) with _ | b
                    · have e : ussdMenu (strL "3" :: [sel, payn]) pay wf =
                          .error .indexError := by
                        simp only [ussdMenu, hint, hidx]
                        rw [if_neg h0, if_neg h1, if_neg h2, if_pos trivial]
                      rw [e]
                      simp [bundleArity2Fault, hint, hidx]
                    · cases pay with
                      | raises =>
                        have e : ussdMenu (strL "3" :: [sel, payn]) PayOutcome.raises wf =
                            .ok ⟨strL "END Error contacting payment service. Please try again later.",
                              some (payn, max b.amount 1000)⟩ := by
                          simp only [ussdMenu, hint, hidx]
                          rw [if_neg h0, if_neg h1, if_neg h2, if_pos trivial]
                        rw [e]
                        exact Or.inl rfl
                      | resp ok =>
                        cases ok with
                        | true =>
                          have e : ussdMenu (strL "3" :: [sel, payn]) (PayOutcome.resp true) wf =
                              .ok ⟨strL "END You selected " ++ b.desc ++
                                strL ". Payment request sent to " ++ payn ++ strL ".",
                                some (payn, max b.amount 1000)⟩ := by
                            simp only [ussdMenu, hint, hidx]
                            rw [if_neg h0, if_neg h1, if_neg h2, if_pos trivial, if_pos trivial]
                          rw [e]
                          exact Or.inl rfl
                        | false =>
                          have e : ussdMenu (strL "3" :: [sel, payn]) (PayOutcome.resp false) wf =
                              .ok ⟨strL "END Failed to initiate payment. Please try again later.",
                                some (payn, max b.amount 1000)⟩ := by
                            simp only [ussdMenu, hint, hidx]
                            rw [if_neg h0, if_neg h1, if_neg h2, if_pos trivial,
                              if_neg (show ¬false = true by decide)]
                          rw [e]
                          exact Or.inl rfl
                · have e : ussdMenu (strL "3" :: sel :: payn :: r3 :: rest4) pay wf =
                      .ok ⟨strL "END Invalid input.", none⟩ := by
                    simp only [ussdMenu]
                    rw [if_neg h0, if_neg h1, if_neg h2, if_pos trivial]
                  rw [e]
                  exact Or.inl (by decide)
          · by_cases h4 : t0 = strL "4"
            · subst h4
              rcases rest with _ | ⟨r1, rest2⟩
              · exact Or.inl (by decide)
              · rcases rest2 with _ | ⟨r2, rest3⟩
                · by_cases hr1 : r1 = strL "1"
                  · subst hr1
                    exact Or.inl (by decide)
                  · by_cases hr2 : r1 = strL "2"
                    · subst hr2
                      exact Or.inl (by decide)
                    · have e : ussdMenu (strL "4" :: [r1]) pay wf =
                          .ok ⟨strL "END Invalid selection.", none⟩ := by
                        simp only [ussdMenu]
                        rw [if_neg h0, if_neg h1, if_neg h2, if_neg h3, if_pos trivial,
                          if_neg hr1, if_neg hr2]
                      rw [e]
                      exact Or.inl (by decide)
                · exact Or.inl (by decide)
            · have e : ussdMenu (t0 :: rest) pay wf =
                  .ok ⟨strL "END Invalid option. Please try again.", none⟩ := by
                simp only [ussdMenu]
                rw [if_neg h0, if_neg h1, if_neg h2, if_neg h3, if_neg h4]
              rw [e]
              exact Or.inl (by decide)

/-- C7 counterexample: the trail `"1*1*1"` (registration branch, three
tokens) produces an empty response text: no sigil, no screen text — a
silent drop. -/
theorem ussd_silent_drop_counterexample :
    ussd_callback (strL "1*1*1") (.resp true) false = .ok ⟨[], none⟩ ∧
    sigilOk [] = false := by
  exact ⟨rfl, rfl⟩

/-- C7 amended: for every trail, either the interpreter replies with a
non-empty sigil-prefixed text, or one of the two exceptional cases
occurs: the registration branch with three or more tokens replies with
empty text, or the arity-2 bundle branch with an unparsable or
out-of-range selection raises an unhandled fault. -/
theorem ussd_always_responds (text : Str) (pay : PayOutcome) (wf : Bool) :
    match ussd_callback text pay wf with
    | .error _ => bundleArity2Fault (tokensOf text) = true
    | .ok out => sigilOk out.text = true ∨
        (out.text = [] ∧ registerOverflow (tokensOf text) = true) :=
  ussdMenu_coverage pay wf (tokensOf text)

end TwoWaySms
